import Mathlib

/-!
Verification of the dual-token authentication and invalidation subsystem of
the `ololo-gate` backend (user/admin login, token codec, refresh, access
guards, admin-driven updates, registration).

The Go source is shallowly embedded: GORM stores become lists of records
queried through executable lookup functions that exclude soft-deleted rows
(GORM's default scope), JWT signing becomes an executable MAC over an
encoding of the claims, bcrypt becomes an injective tagging function, and
`time.Time` becomes a `Nat` instant.  Each handler is a pure function from
its inputs and the store to a result mirroring the HTTP responses of the
source, branch for branch.
-/

namespace OloloGate

/-- Token kinds, from `utils.TokenType` (`part_006`): `access`, `refresh`,
`admin`. -/
inductive TokenType where
  | access
  | refresh
  | admin
deriving DecidableEq, Repr

/-- The wire string of a token kind, from the `TokenType` constants. -/
def TokenType.str : TokenType → String
  | .access => "access"
  | .refresh => "refresh"
  | .admin => "admin"

/-- JWT claims, merging `utils.Claims` (user tokens: `id`, `phone`,
`token_type`, `token_version`) and `utils.AdminClaims` (admin tokens: `id`,
`username`, `role`, `token_type`, `token_version`) of `part_006`, plus the
registered claims `iat`, `nbf` and the optional `exp` (admin tokens carry
none).  Fields absent for a given kind are minted as `""`, matching the Go
zero value a cross-kind JSON decode would produce. -/
structure JWTClaims where
  id : Nat
  phone : String
  username : String
  role : String
  tokenType : TokenType
  tokenVersion : Nat
  issuedAt : Nat
  notBefore : Nat
  expiresAt : Option Nat
deriving DecidableEq, Repr

/-- Serialization of the claims used by the modelled HMAC. -/
def encodeClaims (c : JWTClaims) : String :=
  toString c.id ++ "|" ++ c.phone ++ "|" ++ c.username ++ "|" ++ c.role ++ "|" ++
    c.tokenType.str ++ "|" ++ toString c.tokenVersion ++ "|" ++
    toString c.issuedAt ++ "|" ++ toString c.notBefore ++ "|" ++
    (match c.expiresAt with
     | none => "-"
     | some e => toString e)

/-- HMAC-SHA256 signing (`jwt.SigningMethodHS256` with the process secret),
modelled as a tag binding the secret and the encoded claims. -/
def signHS256 (secret : String) (c : JWTClaims) : String :=
  "HS256." ++ secret ++ "." ++ encodeClaims c

/-- A signed token: claims plus the signature over them.  A token whose
`mac` does not match `signHS256 secret claims` fails verification, which
models both tampering and a wrong or non-HMAC key. -/
structure Token where
  claims : JWTClaims
  mac : String
deriving DecidableEq, Repr

/-- Verification failures of `jwt.ParseWithClaims` plus the explicit
kind check of `ValidateToken` (`part_006`), collapsed to the cases the
handlers can distinguish. -/
inductive TokenError where
  | badSignature
  | expired
  | notYetValid
  | invalidTokenType
deriving DecidableEq, Repr

/-- The JWT configuration the token helpers read from `config.AppConfig`:
the signing secret and the user access/refresh TTLs. -/
structure Config where
  secret : String
  accessExpiry : Nat
  refreshExpiry : Nat
deriving Repr

/-- `utils.generateToken` (`part_006`): claims with `iat = nbf = now`,
`exp = now + expiry`, signed with the secret.  User tokens only; the
`username`/`role` fields of the merged claims are zero. -/
def generateToken (secret : String) (userID : Nat) (phone : String)
    (tokenVersion : Nat) (tokenType : TokenType) (expiry : Nat) (now : Nat) : Token :=
  let claims : JWTClaims :=
    { id := userID, phone := phone, username := "", role := "",
      tokenType := tokenType, tokenVersion := tokenVersion,
      issuedAt := now, notBefore := now, expiresAt := some (now + expiry) }
  { claims := claims, mac := signHS256 secret claims }

/-- The access/refresh pair returned by `utils.GenerateTokens`. -/
structure TokenPair where
  accessToken : Token
  refreshToken : Token
deriving DecidableEq, Repr

/-- `utils.GenerateTokens` (`part_006`): an access token with the access
TTL and a refresh token with the refresh TTL, both stamped with the same
version. -/
def generateTokens (cfg : Config) (userID : Nat) (phone : String)
    (tokenVersion : Nat) (now : Nat) : TokenPair :=
  { accessToken := generateToken cfg.secret userID phone tokenVersion .access cfg.accessExpiry now,
    refreshToken := generateToken cfg.secret userID phone tokenVersion .refresh cfg.refreshExpiry now }

/-- `utils.ValidateToken` (`part_006`): `jwt.ParseWithClaims` checks the
HMAC signature and the registered claims (expired when `exp ≤ now`, not yet
valid when `now < nbf`, an absent `exp` is accepted), then the token kind is
compared with the expected kind. -/
def validateToken (secret : String) (tok : Token) (expectedType : TokenType)
    (now : Nat) : Except TokenError JWTClaims :=
  if tok.mac ≠ signHS256 secret tok.claims then .error .badSignature
  else if (match tok.claims.expiresAt with
           | some e => decide (e ≤ now)
           | none => false) then .error .expired
  else if now < tok.claims.notBefore then .error .notYetValid
  else if tok.claims.tokenType ≠ expectedType then .error .invalidTokenType
  else .ok tok.claims

/-- `utils.RefreshAccessToken` (`part_006`): validate the refresh token,
then mint a new access token carrying the same identity and the same
version stamp. -/
def refreshAccessToken (cfg : Config) (refreshTok : Token) (now : Nat) :
    Except TokenError Token :=
  match validateToken cfg.secret refreshTok .refresh now with
  | .error e => .error e
  | .ok claims =>
      .ok (generateToken cfg.secret claims.id claims.phone claims.tokenVersion
            .access cfg.accessExpiry now)

/-- `utils.GenerateAdminToken` (`part_006`): admin claims with
`iat = nbf = now` and no `exp` (the token never expires by time), signed
with the same process secret. -/
def generateAdminToken (secret : String) (adminID : Nat) (username role : String)
    (tokenVersion : Nat) (now : Nat) : Token :=
  let claims : JWTClaims :=
    { id := adminID, phone := "", username := username, role := role,
      tokenType := .admin, tokenVersion := tokenVersion,
      issuedAt := now, notBefore := now, expiresAt := none }
  { claims := claims, mac := signHS256 secret claims }

/-- `utils.ValidateAdminToken` (`part_006`): the same parse/signature/
registered-claims logic as `ValidateToken` with the expected kind fixed to
`admin`. -/
def validateAdminToken (secret : String) (tok : Token) (now : Nat) :
    Except TokenError JWTClaims :=
  validateToken secret tok .admin now

/-- `bcrypt.GenerateFromPassword` (cost 10), modelled as an injective
tagging of the plaintext: distinct passwords hash distinctly and
`checkPassword` succeeds exactly on the hashed plaintext. -/
def hashPassword (plain : String) : String :=
  "bcrypt-10." ++ plain

/-- `bcrypt.CompareHashAndPassword`, as used by `User.CheckPassword` and
`Admin.CheckPassword`. -/
def checkPassword (storedHash plain : String) : Bool :=
  storedHash == hashPassword plain

/-- `models.User` (`internal/models/user.go`): uuid id (modelled as `Nat`),
unique phone, bcrypt password hash, `TokenVersion` (default 0),
`CurrentDeviceID` (default `""`), and the GORM soft-delete marker
`DeletedAt` (`none` = live). -/
structure User where
  id : Nat
  phone : String
  password : String
  tokenVersion : Nat
  currentDeviceID : String
  deletedAt : Option Nat
deriving DecidableEq, Repr

/-- `models.Admin` (`part_002`): uuid id, unique username, bcrypt password
hash, role (`super`/`regular`), `TokenVersion` (default 0), soft-delete
marker. -/
structure Admin where
  id : Nat
  username : String
  password : String
  role : String
  tokenVersion : Nat
  deletedAt : Option Nat
deriving DecidableEq, Repr

/-- `models.RoleSuper`. -/
def RoleSuper : String := "super"

/-- `models.RoleRegular`. -/
def RoleRegular : String := "regular"

/-- `db.DB.Where("phone = ?", phone).First(&user)`: GORM's default scope
returns the first non-soft-deleted row with that phone. -/
def findUserByPhone (store : List User) (phone : String) : Option User :=
  store.find? fun u => u.deletedAt.isNone && u.phone == phone

/-- `db.DB.First(&user, id)`: first non-soft-deleted row with that primary
key. -/
def findUserByID (store : List User) (id : Nat) : Option User :=
  store.find? fun u => u.deletedAt.isNone && u.id == id

/-- `db.DB.Save(&user)`: persist the mutated record under its primary
key. -/
def saveUser (store : List User) (u : User) : List User :=
  store.map fun x => if x.id == u.id then u else x

/-- `db.DB.Where("username = ?", username).First(&admin)` under GORM's
default (soft-delete-excluding) scope. -/
def findAdminByUsername (store : List Admin) (username : String) : Option Admin :=
  store.find? fun a => a.deletedAt.isNone && a.username == username

/-- `db.DB.First(&admin, id)` under GORM's default scope. -/
def findAdminByID (store : List Admin) (id : Nat) : Option Admin :=
  store.find? fun a => a.deletedAt.isNone && a.id == id

/-- `db.DB.Save(&admin)`. -/
def saveAdmin (store : List Admin) (a : Admin) : List Admin :=
  store.map fun x => if x.id == a.id then a else x

/-- The phone regex of `auth.go`, `^\+[1-9]\d{1,14}$`: a plus sign, a
leading digit 1–9, then one to fourteen further digits. -/
def isE164 (s : String) : Bool :=
  match s.data with
  | '+' :: c :: rest =>
      ('1' ≤ c && c ≤ '9') && rest.all (fun d => '0' ≤ d && d ≤ '9') &&
        (1 ≤ rest.length && rest.length ≤ 14)
  | _ => false

/-- The composite unique index `idx_phone_deleted_at` of `models.User`
keys rows by the pair (phone, deleted-at), so a deleted and a live row may
share a phone. -/
def phoneIndexKey (u : User) : String × Option Nat :=
  (u.phone, u.deletedAt)

/-- The device-tracking block of `handlers.Login` (`auth.go` lines
185–212): `deviceChanged` is true when no device id was supplied (legacy
behaviour), or when one was supplied, a current device is stored, and the
two differ; the version is incremented exactly when `deviceChanged`; a
supplied device id is stored as the new current device. -/
def applyDeviceLogin (user : User) (deviceID : String) : User :=
  let deviceChanged :=
    if deviceID = "" then true
    else decide (user.currentDeviceID ≠ "" ∧ user.currentDeviceID ≠ deviceID)
  let user1 :=
    if deviceChanged then { user with tokenVersion := user.tokenVersion + 1 } else user
  if deviceID ≠ "" then { user1 with currentDeviceID := deviceID } else user1

/-- Outcome of `handlers.Login`, after request-body parsing.  `ok` carries
the post-request store (the saved user), the saved user record, and the
minted token pair. -/
inductive LoginResult where
  | badRequest (msg : String)
  | unauthorized (msg : String)
  | ok (store : List User) (user : User) (tokens : TokenPair)
deriving DecidableEq, Repr

/-- `handlers.Login` (`auth.go`): phone-format check, lookup by phone,
password check (both credential failures answer `Invalid credentials`),
device-aware version bump, save, then mint the pair stamped with the
resulting version. -/
def login (cfg : Config) (store : List User) (phone password deviceID : String)
    (now : Nat) : LoginResult :=
  if ¬ isE164 phone then .badRequest "Invalid phone number format"
  else
    match findUserByPhone store phone with
    | none => .unauthorized "Invalid credentials"
    | some user =>
        if ¬ checkPassword user.password password then .unauthorized "Invalid credentials"
        else
          let user2 := applyDeviceLogin user deviceID
          .ok (saveUser store user2) user2
            (generateTokens cfg user2.id user2.phone user2.tokenVersion now)

/-- Outcome of `handlers.Register`. -/
inductive RegisterResult where
  | badRequest (msg : String)
  | conflict (msg : String)
  | created (store : List User) (user : User)
deriving DecidableEq, Repr

/-- `handlers.Register` (`auth.go`): phone-format and password-length
checks, duplicate check through the default (soft-delete-excluding) scope,
then creation with a fresh id (`newID` models `uuid.New`), the bcrypt hash
applied by the `BeforeCreate` hook, and the column defaults
`TokenVersion = 0`, `CurrentDeviceID = ""`. -/
def register (store : List User) (phone password : String) (newID : Nat) :
    RegisterResult :=
  if ¬ isE164 phone then
    .badRequest "Invalid phone number format. Use international format (e.g., +77771234567)"
  else if password.length < 6 then
    .badRequest "Password must be at least 6 characters long"
  else
    match findUserByPhone store phone with
    | some _ => .conflict "User with this phone number already exists"
    | none =>
        let user : User :=
          { id := newID, phone := phone, password := hashPassword password,
            tokenVersion := 0, currentDeviceID := "", deletedAt := none }
        .created (store ++ [user]) user

/-- Outcome of `handlers.RefreshToken`.  `ok` carries the (unmodified)
store to make the absence of a write explicit, plus the fresh access
token. -/
inductive RefreshResult where
  | unauthorized (msg : String)
  | serverError (msg : String)
  | ok (store : List User) (accessToken : Token)
deriving DecidableEq, Repr

/-- `handlers.RefreshToken` (`auth.go`): validate as a refresh token, look
the user up by the claimed id, compare the live version with the stamp,
then delegate to `RefreshAccessToken`.  The handler performs no store
write. -/
def refreshTokenHandler (cfg : Config) (store : List User) (refreshTok : Token)
    (now : Nat) : RefreshResult :=
  match validateToken cfg.secret refreshTok .refresh now with
  | .error _ => .unauthorized "Invalid or expired refresh token"
  | .ok claims =>
      match findUserByID store claims.id with
      | none => .unauthorized "User not found"
      | some user =>
          if user.tokenVersion ≠ claims.tokenVersion then
            .unauthorized "Token has been invalidated. Please login again."
          else
            match refreshAccessToken cfg refreshTok now with
            | .error _ => .serverError "Failed to generate access token"
            | .ok tok => .ok store tok

/-- The `Authorization` header as the middleware sees it after the split
on spaces: absent, present but not exactly `Bearer <token>`, or a bearer
token. -/
inductive AuthHeader where
  | missing
  | malformed (raw : String)
  | bearer (tok : Token)
deriving DecidableEq, Repr

/-- Outcome of `middleware.JWTProtected`: an unauthorized response, or the
context values set on success (`c.Locals("id", ...)`,
`c.Locals("phone", ...)`). -/
inductive UserGuardResult where
  | unauthorized (msg : String)
  | ok (id : Nat) (phone : String)
deriving DecidableEq, Repr

/-- `middleware.JWTProtected` (`part_001`): header present, well-formed,
token valid as `access`, user resolvable by the claimed id, live version
equal to the stamp; on success the claimed id and phone are attached to
the request context. -/
def jwtProtected (cfg : Config) (store : List User) (header : AuthHeader)
    (now : Nat) : UserGuardResult :=
  match header with
  | .missing => .unauthorized "Missing authorization header"
  | .malformed _ => .unauthorized "Invalid authorization header format. Use: Bearer <token>"
  | .bearer tok =>
      match validateToken cfg.secret tok .access now with
      | .error _ => .unauthorized "Invalid or expired token"
      | .ok claims =>
          match findUserByID store claims.id with
          | none => .unauthorized "User not found"
          | some user =>
              if user.tokenVersion ≠ claims.tokenVersion then
                .unauthorized "Token has been invalidated. Please login again."
              else .ok claims.id claims.phone

/-- Outcome of `middleware.AdminJWTProtected` / `SuperAdminOnly`. -/
inductive AdminGuardResult where
  | unauthorized (msg : String)
  | forbidden (msg : String)
  | ok (id : Nat) (username role : String)
deriving DecidableEq, Repr

/-- `middleware.AdminJWTProtected` (`internal/middleware/admin.go`): same
shape as the user guard, but the admin-not-found branch and the
version-mismatch branch both answer `Token has been invalidated`; on
success the claimed id, username and role are attached to the context. -/
def adminJWTProtected (cfg : Config) (store : List Admin) (header : AuthHeader)
    (now : Nat) : AdminGuardResult :=
  match header with
  | .missing => .unauthorized "Missing authorization header"
  | .malformed _ => .unauthorized "Invalid authorization header format. Use: Bearer <token>"
  | .bearer tok =>
      match validateAdminToken cfg.secret tok now with
      | .error _ => .unauthorized "Invalid or expired token"
      | .ok claims =>
          match findAdminByID store claims.id with
          | none => .unauthorized "Token has been invalidated"
          | some admin =>
              if admin.tokenVersion ≠ claims.tokenVersion then
                .unauthorized "Token has been invalidated"
              else .ok claims.id claims.username claims.role

/-- Outcome of `handlers.AdminLogin`. -/
inductive AdminLoginResult where
  | badRequest (msg : String)
  | unauthorized (msg : String)
  | ok (store : List Admin) (admin : Admin) (token : Token)
deriving DecidableEq, Repr

/-- `handlers.AdminLogin` (`admin_auth.go`): required fields, lookup by
username, password check, then an unconditional version increment, save,
and a permanent admin token stamped with the new version. -/
def adminLogin (cfg : Config) (store : List Admin) (username password : String)
    (now : Nat) : AdminLoginResult :=
  if username = "" ∨ password = "" then .badRequest "Username and password are required"
  else
    match findAdminByUsername store username with
    | none => .unauthorized "Invalid credentials"
    | some admin =>
        if ¬ checkPassword admin.password password then .unauthorized "Invalid credentials"
        else
          let admin1 := { admin with tokenVersion := admin.tokenVersion + 1 }
          .ok (saveAdmin store admin1) admin1
            (generateAdminToken cfg.secret admin1.id admin1.username admin1.role
              admin1.tokenVersion now)

/-- `handlers.UpdateAdminRequest` (`part_011`): all three fields optional
pointers. -/
structure UpdateAdminRequest where
  password : Option String
  username : Option String
  role : Option String
deriving DecidableEq, Repr

/-- Outcome of `handlers.UpdateAdmin`. -/
inductive UpdateAdminResult where
  | badRequest (msg : String)
  | forbidden (msg : String)
  | notFound (msg : String)
  | ok (store : List Admin) (admin : Admin)
deriving DecidableEq, Repr

/-- `handlers.UpdateAdmin` (`part_011` lines 380–490): permission checks,
the at-least-one-field check, lookup, then the supplied fields are applied
(the password re-hashed) and the record saved.  The password-length and
role-value validations are early returns before any save in the source, so
they are checked up front here; `TokenVersion` is never touched. -/
def updateAdmin (store : List Admin) (requestingAdminRole : String)
    (requestingAdminID : Nat) (adminID : Nat) (req : UpdateAdminRequest) :
    UpdateAdminResult :=
  if requestingAdminID ≠ adminID ∧ requestingAdminRole ≠ RoleSuper then
    .forbidden "Regular admins can only update their own record"
  else if req.password = none ∧ req.username = none ∧ req.role = none then
    .badRequest "At least one field (password, username, or role) must be provided"
  else if req.role.isSome ∧ requestingAdminRole ≠ RoleSuper then
    .forbidden "Only super admins can change admin roles"
  else
    match findAdminByID store adminID with
    | none => .notFound "Admin not found"
    | some admin =>
        if (match req.password with
            | some p => decide (p.length < 6)
            | none => false) then
          .badRequest "Password must be at least 6 characters long"
        else if (match req.role with
                 | some r => decide (r ≠ RoleSuper ∧ r ≠ RoleRegular)
                 | none => false) then
          .badRequest "Invalid role. Must be super or regular"
        else
          let a1 := match req.password with
                    | some p => { admin with password := hashPassword p }
                    | none => admin
          let a2 := match req.username with
                    | some u => { a1 with username := u }
                    | none => a1
          let a3 := match req.role with
                    | some r => { a2 with role := r }
                    | none => a2
          .ok (saveAdmin store a3) a3

/-- `handlers.UpdateUserRequest` (`response_dtos.go`): optional phone and
password, the Go zero value `""` meaning "not supplied".  The `Locations`
field only drives a post-save third-party call and is omitted. -/
structure UpdateUserRequest where
  phone : String
  password : String
deriving DecidableEq, Repr

/-- Outcome of `handlers.UpdateUser`. -/
inductive UpdateUserResult where
  | badRequest (msg : String)
  | notFound (msg : String)
  | conflict (msg : String)
  | ok (store : List User) (user : User)
deriving DecidableEq, Repr

/-- `handlers.UpdateUser` (`part_012` lines 313–433): password-length
check, lookup, then — in source order — the phone branch overwrites
`user.Phone` with the requested phone (after format and duplicate checks),
the password branch re-hashes and increments `TokenVersion`, and a second
evaluation of the phone-changed condition (now against the already
overwritten phone) guards a further increment before the save. -/
def updateUser (store : List User) (userID : Nat) (req : UpdateUserRequest) :
    UpdateUserResult :=
  if req.password ≠ "" ∧ req.password.length < 6 then
    .badRequest "Password must be at least 6 characters long"
  else
    match findUserByID store userID with
    | none => .notFound "User not found"
    | some user =>
        if req.phone ≠ "" ∧ req.phone ≠ user.phone ∧ ¬ isE164 req.phone then
          .badRequest "Invalid phone number format. Use international format (e.g., +77771234567)"
        else if req.phone ≠ "" ∧ req.phone ≠ user.phone ∧
            (findUserByPhone store req.phone).isSome then
          .conflict "Phone number is already in use"
        else
          let u1 := if req.phone ≠ "" ∧ req.phone ≠ user.phone
                    then { user with phone := req.phone } else user
          let u2 := if req.password ≠ ""
                    then { u1 with password := hashPassword req.password,
                                   tokenVersion := u1.tokenVersion + 1 }
                    else u1
          let u3 := if req.phone ≠ "" ∧ req.phone ≠ u2.phone
                    then { u2 with tokenVersion := u2.tokenVersion + 1 } else u2
          .ok (saveUser store u3) u3

/-! Lemmas and theorems: Concrete fixtures used by witnesses and counterexamples -/

/-- A concrete JWT configuration. -/
def demoCfg : Config :=
  { secret := "secret", accessExpiry := 15, refreshExpiry := 720 }

/-- A concrete E.164 phone. -/
def demoPhone : String := "+77771234567"

/-- A concrete user at a given version and stored device. -/
def demoUserAt (v : Nat) (dev : String) : User :=
  { id := 1, phone := demoPhone, password := hashPassword "password123",
    tokenVersion := v, currentDeviceID := dev, deletedAt := none }

/-- A concrete admin at a given version. -/
def demoAdminAt (v : Nat) : Admin :=
  { id := 5, username := "root", password := hashPassword "adminpass",
    role := RoleSuper, tokenVersion := v, deletedAt := none }

/-! Lemmas and theorems: Store lemmas -/

theorem findUserByPhone_props {store : List User} {phone : String} {u : User}
    (h : findUserByPhone store phone = some u) :
    u ∈ store ∧ u.deletedAt = none ∧ u.phone = phone := by
  have hmem := List.mem_of_find?_eq_some h
  have hpred := List.find?_some h
  simp only [Bool.and_eq_true, beq_iff_eq, Option.isNone_iff_eq_none] at hpred
  exact ⟨hmem, hpred.1, hpred.2⟩

theorem findUserByID_props {store : List User} {i : Nat} {u : User}
    (h : findUserByID store i = some u) :
    u ∈ store ∧ u.deletedAt = none ∧ u.id = i := by
  have hmem := List.mem_of_find?_eq_some h
  have hpred := List.find?_some h
  simp only [Bool.and_eq_true, beq_iff_eq, Option.isNone_iff_eq_none] at hpred
  exact ⟨hmem, hpred.1, hpred.2⟩

theorem findAdminByUsername_props {store : List Admin} {name : String} {a : Admin}
    (h : findAdminByUsername store name = some a) :
    a ∈ store ∧ a.deletedAt = none ∧ a.username = name := by
  have hmem := List.mem_of_find?_eq_some h
  have hpred := List.find?_some h
  simp only [Bool.and_eq_true, beq_iff_eq, Option.isNone_iff_eq_none] at hpred
  exact ⟨hmem, hpred.1, hpred.2⟩

theorem findAdminByID_props {store : List Admin} {i : Nat} {a : Admin}
    (h : findAdminByID store i = some a) :
    a ∈ store ∧ a.deletedAt = none ∧ a.id = i := by
  have hmem := List.mem_of_find?_eq_some h
  have hpred := List.find?_some h
  simp only [Bool.and_eq_true, beq_iff_eq, Option.isNone_iff_eq_none] at hpred
  exact ⟨hmem, hpred.1, hpred.2⟩

/-- After saving `u`, looking the live `u` up by its id finds exactly `u`,
provided some row with that id was present. -/
theorem findUserByID_saveUser {store : List User} {u x : User}
    (hdel : u.deletedAt = none) (hx : x ∈ store) (hxid : x.id = u.id) :
    findUserByID (saveUser store u) u.id = some u := by
  induction store with
  | nil => cases hx
  | cons a l ih =>
      by_cases hid : a.id = u.id
      · have hhead : (if a.id == u.id then u else a) = u := by simp [hid]
        simp only [saveUser, List.map_cons, findUserByID] at *
        rw [hhead, List.find?_cons_of_pos]
        simp [hdel]
      · have hhead : (if a.id == u.id then u else a) = a := by simp [hid]
        rcases List.mem_cons.mp hx with rfl | hxl
        · exact absurd (hxid ▸ rfl) hid
        · simp only [saveUser, List.map_cons, findUserByID] at *
          rw [hhead, List.find?_cons_of_neg]
          · exact ih hxl
          · simp [hid]

/-- Admin analogue of `findUserByID_saveUser`. -/
theorem findAdminByID_saveAdmin {store : List Admin} {a x : Admin}
    (hdel : a.deletedAt = none) (hx : x ∈ store) (hxid : x.id = a.id) :
    findAdminByID (saveAdmin store a) a.id = some a := by
  induction store with
  | nil => cases hx
  | cons b l ih =>
      by_cases hid : b.id = a.id
      · have hhead : (if b.id == a.id then a else b) = a := by simp [hid]
        simp only [saveAdmin, List.map_cons, findAdminByID] at *
        rw [hhead, List.find?_cons_of_pos]
        simp [hdel]
      · have hhead : (if b.id == a.id then a else b) = b := by simp [hid]
        rcases List.mem_cons.mp hx with rfl | hxl
        · exact absurd (hxid ▸ rfl) hid
        · simp only [saveAdmin, List.map_cons, findAdminByID] at *
          rw [hhead, List.find?_cons_of_neg]
          · exact ih hxl
          · simp [hid]

/-! Lemmas and theorems: Device-policy lemmas -/

theorem applyDeviceLogin_empty (u : User) :
    applyDeviceLogin u "" = { u with tokenVersion := u.tokenVersion + 1 } := by
  simp [applyDeviceLogin]

theorem applyDeviceLogin_newDevice (u : User) (d : String) (hd : d ≠ "")
    (hcur : u.currentDeviceID ≠ "") (hne : u.currentDeviceID ≠ d) :
    applyDeviceLogin u d =
      { u with tokenVersion := u.tokenVersion + 1, currentDeviceID := d } := by
  simp [applyDeviceLogin, hd, hcur, hne]

theorem applyDeviceLogin_sameDevice (u : User) (d : String) (hd : d ≠ "")
    (h : u.currentDeviceID = "" ∨ u.currentDeviceID = d) :
    applyDeviceLogin u d = { u with currentDeviceID := d } := by
  rcases h with h | h <;> simp [applyDeviceLogin, hd, h]

theorem applyDeviceLogin_device (u : User) (d : String) (hd : d ≠ "") :
    (applyDeviceLogin u d).currentDeviceID = d := by
  unfold applyDeviceLogin
  simp only [hd, ne_eq, not_false_eq_true, if_true, if_neg]

theorem applyDeviceLogin_fields (u : User) (d : String) :
    (applyDeviceLogin u d).id = u.id ∧ (applyDeviceLogin u d).phone = u.phone ∧
    (applyDeviceLogin u d).password = u.password ∧
    (applyDeviceLogin u d).deletedAt = u.deletedAt := by
  unfold applyDeviceLogin
  by_cases hd : d = ""
  · simp [hd]
  · simp only [hd, if_neg, ite_false, ne_eq, not_false_eq_true, if_true]
    split <;> simp

/-! Lemmas and theorems: Handler inversion lemmas -/

/-- A successful login, seen from the pre-state: the phone was well-formed,
the password matched, the saved user is the device-policy update of the
found user, and the tokens are minted on the saved user's version. -/
theorem login_ok_inv {cfg : Config} {store : List User}
    {phone password deviceID : String} {now : Nat}
    {store1 : List User} {u1 : User} {toks : TokenPair} {u0 : User}
    (hfind : findUserByPhone store phone = some u0)
    (h : login cfg store phone password deviceID now = .ok store1 u1 toks) :
    isE164 phone = true ∧ checkPassword u0.password password = true ∧
    u1 = applyDeviceLogin u0 deviceID ∧ store1 = saveUser store u1 ∧
    toks = generateTokens cfg u1.id u1.phone u1.tokenVersion now := by
  by_cases hp : isE164 phone = true
  · rw [login, if_neg (by simp [hp]), hfind] at h
    dsimp only at h
    by_cases hpw : checkPassword u0.password password = true
    · rw [if_neg (by simp [hpw])] at h
      obtain ⟨h1, h2, h3⟩ := LoginResult.ok.inj h
      exact ⟨hp, hpw, h2.symm, h2 ▸ h1.symm, h2 ▸ h3.symm⟩
    · rw [if_pos (by simp [hpw])] at h
      cases h
  · rw [login, if_pos (by simp [hp])] at h
    cases h

/-- A successful admin login, seen from the pre-state: the password
matched, the saved admin carries the incremented version, and the token is
the permanent admin token minted on it. -/
theorem adminLogin_ok_inv {cfg : Config} {store : List Admin}
    {username password : String} {now : Nat}
    {store1 : List Admin} {a1 : Admin} {tok : Token} {a0 : Admin}
    (hfind : findAdminByUsername store username = some a0)
    (h : adminLogin cfg store username password now = .ok store1 a1 tok) :
    checkPassword a0.password password = true ∧
    a1 = { a0 with tokenVersion := a0.tokenVersion + 1 } ∧
    store1 = saveAdmin store a1 ∧
    tok = generateAdminToken cfg.secret a1.id a1.username a1.role a1.tokenVersion now := by
  by_cases hne : username = "" ∨ password = ""
  · rw [adminLogin, if_pos hne] at h
    cases h
  · rw [adminLogin, if_neg hne, hfind] at h
    dsimp only at h
    by_cases hpw : checkPassword a0.password password = true
    · rw [if_neg (by simp [hpw])] at h
      obtain ⟨h1, h2, h3⟩ := AdminLoginResult.ok.inj h
      exact ⟨hpw, h2.symm, h2 ▸ h1.symm, h2 ▸ h3.symm⟩
    · rw [if_pos (by simp [hpw])] at h
      cases h

end OloloGate

namespace OloloGate

/-! Lemmas and theorems: Claim C1 -/

/-- C1: on every successful user login, an empty device id increments the
stored version by one (three consecutive no-device logins from version 0
yield stored and stamped versions 1, 2, 3), a supplied device id that
differs from a non-empty stored device increments by one, a supplied
device id equal to the stored device leaves the version unchanged; in
every case the resulting version (and the supplied device id, when any)
is persisted and both minted tokens are stamped with the resulting
version. -/
theorem c1_login_device_version_policy
    (cfg : Config) (store : List User) (phone password deviceID : String)
    (now : Nat) (store1 : List User) (u0 u1 : User) (toks : TokenPair)
    (hfind : findUserByPhone store phone = some u0)
    (h : login cfg store phone password deviceID now = .ok store1 u1 toks) :
    (deviceID = "" → u1.tokenVersion = u0.tokenVersion + 1) ∧
    (deviceID ≠ "" → u0.currentDeviceID ≠ "" → deviceID ≠ u0.currentDeviceID →
      u1.tokenVersion = u0.tokenVersion + 1) ∧
    (deviceID ≠ "" → deviceID = u0.currentDeviceID →
      u1.tokenVersion = u0.tokenVersion) ∧
    findUserByID store1 u0.id = some u1 ∧
    (deviceID ≠ "" → u1.currentDeviceID = deviceID) ∧
    toks.accessToken.claims.tokenVersion = u1.tokenVersion ∧
    toks.refreshToken.claims.tokenVersion = u1.tokenVersion ∧
    (login demoCfg [demoUserAt 0 ""] demoPhone "password123" "" 0 =
       .ok [demoUserAt 1 ""] (demoUserAt 1 "") (generateTokens demoCfg 1 demoPhone 1 0) ∧
     login demoCfg [demoUserAt 1 ""] demoPhone "password123" "" 0 =
       .ok [demoUserAt 2 ""] (demoUserAt 2 "") (generateTokens demoCfg 1 demoPhone 2 0) ∧
     login demoCfg [demoUserAt 2 ""] demoPhone "password123" "" 0 =
       .ok [demoUserAt 3 ""] (demoUserAt 3 "") (generateTokens demoCfg 1 demoPhone 3 0)) := by
  obtain ⟨hp, hpw, hu1, hs1, htk⟩ := login_ok_inv hfind h
  obtain ⟨hmem, hdel, hphone⟩ := findUserByPhone_props hfind
  obtain ⟨hid, -, -, hdel1⟩ := applyDeviceLogin_fields u0 deviceID
  refine ⟨?_, ?_, ?_, ?_, ?_, ?_, ?_, by decide, by decide, by decide⟩
  · intro hd
    subst hd
    rw [hu1, applyDeviceLogin_empty]
  · intro hd hcur hne
    rw [hu1, applyDeviceLogin_newDevice u0 deviceID hd hcur (Ne.symm hne)]
  · intro hd heq
    rw [hu1, applyDeviceLogin_sameDevice u0 deviceID hd (Or.inr heq.symm)]
  · have hu1id : u1.id = u0.id := by rw [hu1]; exact hid
    have hu1del : u1.deletedAt = none := by rw [hu1, hdel1, hdel]
    rw [hs1, ← hu1id]
    exact findUserByID_saveUser hu1del hmem hu1id.symm
  · intro hd
    rw [hu1]
    exact applyDeviceLogin_device u0 deviceID hd
  · rw [htk]; rfl
  · rw [htk]; rfl

/-- Witness for C1 at a concrete login: the empty-device clause applied to
a user at version 0 yields stored version 1. -/
theorem c1_login_device_version_policy_witness :
    (demoUserAt 1 "").tokenVersion = (demoUserAt 0 "").tokenVersion + 1 :=
  (c1_login_device_version_policy demoCfg [demoUserAt 0 ""] demoPhone "password123" "" 0
      [demoUserAt 1 ""] (demoUserAt 0 "") (demoUserAt 1 "")
      (generateTokens demoCfg 1 demoPhone 1 0) (by decide) (by decide)).1 rfl

end OloloGate

namespace OloloGate

/-! Lemmas and theorems: Claim C2 -/

/-- C2 counterexample: for a user at version 0 with no stored device, a
first successful login supplying device id `A` leaves the stored token
version at 0 — not 1 as claimed: `Login` increments on a supplied device
id only when a stored current device exists and differs. -/
theorem c2_counterexample :
    login demoCfg [demoUserAt 0 ""] demoPhone "password123" "A" 0 =
      .ok [demoUserAt 0 "A"] (demoUserAt 0 "A") (generateTokens demoCfg 1 demoPhone 0 0) ∧
    (demoUserAt 0 "A").tokenVersion ≠ 1 :=
  ⟨by decide, by decide⟩

/-- C2 (amended): for a user whose stored device is empty or equal to the
supplied non-empty device id, a successful login leaves the token version
unchanged and stores the supplied device id.  In the claimed scenario the
first login with device `A` therefore keeps version 0 (and stores `A`),
and the second login with `A` keeps it at 0 as well. -/
theorem c2_device_login_keeps_version
    (cfg : Config) (store : List User) (phone password d : String) (now : Nat)
    (store1 : List User) (u0 u1 : User) (toks : TokenPair)
    (hd : d ≠ "") (hdev : u0.currentDeviceID = "" ∨ u0.currentDeviceID = d)
    (hfind : findUserByPhone store phone = some u0)
    (h : login cfg store phone password d now = .ok store1 u1 toks) :
    u1.tokenVersion = u0.tokenVersion ∧ u1.currentDeviceID = d ∧
    findUserByID store1 u0.id = some u1 ∧
    toks.accessToken.claims.tokenVersion = u0.tokenVersion := by
  obtain ⟨hp, hpw, hu1, hs1, htk⟩ := login_ok_inv hfind h
  obtain ⟨hmem, hdel, hphone⟩ := findUserByPhone_props hfind
  have heq := applyDeviceLogin_sameDevice u0 d hd hdev
  have hver : u1.tokenVersion = u0.tokenVersion := by rw [hu1, heq]
  refine ⟨hver, by rw [hu1, heq], ?_, by rw [htk]; exact hver⟩
  have hu1id : u1.id = u0.id := by rw [hu1, heq]
  have hu1del : u1.deletedAt = none := by rw [hu1, heq]; exact hdel
  rw [hs1, ← hu1id]
  exact findUserByID_saveUser hu1del hmem hu1id.symm

/-- Witness for amended C2: the two concrete logins of the scenario, both
leaving the version at 0. -/
theorem c2_device_login_keeps_version_witness :
    (demoUserAt 0 "A").tokenVersion = (demoUserAt 0 "").tokenVersion ∧
    (demoUserAt 0 "A").tokenVersion = (demoUserAt 0 "A").tokenVersion :=
  ⟨(c2_device_login_keeps_version demoCfg [demoUserAt 0 ""] demoPhone "password123" "A" 0
      [demoUserAt 0 "A"] (demoUserAt 0 "") (demoUserAt 0 "A")
      (generateTokens demoCfg 1 demoPhone 0 0) (by decide) (Or.inl rfl)
      (by decide) (by decide)).1,
   (c2_device_login_keeps_version demoCfg [demoUserAt 0 "A"] demoPhone "password123" "A" 0
      [demoUserAt 0 "A"] (demoUserAt 0 "A") (demoUserAt 0 "A")
      (generateTokens demoCfg 1 demoPhone 0 0) (by decide) (Or.inr rfl)
      (by decide) (by decide)).1⟩

/-! Lemmas and theorems: Claim C3 -/

/-- C3: every successful admin login increments the stored token version
by exactly one (unconditionally — there is no device concept for admins),
persists it, and mints an admin-kind token stamped with the new version
and carrying no expiry claim. -/
theorem c3_admin_login_bumps_version
    (cfg : Config) (store : List Admin) (username password : String) (now : Nat)
    (store1 : List Admin) (a0 a1 : Admin) (tok : Token)
    (hfind : findAdminByUsername store username = some a0)
    (h : adminLogin cfg store username password now = .ok store1 a1 tok) :
    a1.tokenVersion = a0.tokenVersion + 1 ∧
    findAdminByID store1 a0.id = some a1 ∧
    tok.claims.tokenType = .admin ∧
    tok.claims.tokenVersion = a0.tokenVersion + 1 ∧
    tok.claims.expiresAt = none := by
  obtain ⟨hpw, ha1, hs1, htok⟩ := adminLogin_ok_inv hfind h
  obtain ⟨hmem, hdel, hname⟩ := findAdminByUsername_props hfind
  have hver : a1.tokenVersion = a0.tokenVersion + 1 := by rw [ha1]
  refine ⟨hver, ?_, by rw [htok]; rfl, by rw [htok]; exact hver, by rw [htok]; rfl⟩
  have ha1id : a1.id = a0.id := by rw [ha1]
  have ha1del : a1.deletedAt = none := by rw [ha1]; exact hdel
  rw [hs1, ← ha1id]
  exact findAdminByID_saveAdmin ha1del hmem ha1id.symm

/-- Witness for C3 at a concrete admin login from version 0. -/
theorem c3_admin_login_bumps_version_witness :
    (demoAdminAt 1).tokenVersion = (demoAdminAt 0).tokenVersion + 1 ∧
    (generateAdminToken demoCfg.secret 5 "root" RoleSuper 1 0).claims.expiresAt = none := by
  have h := c3_admin_login_bumps_version demoCfg [demoAdminAt 0] "root" "adminpass" 0
    [demoAdminAt 1] (demoAdminAt 0) (demoAdminAt 1)
    (generateAdminToken demoCfg.secret 5 "root" RoleSuper 1 0) (by decide) (by decide)
  exact ⟨h.1, h.2.2.2.2⟩

end OloloGate

namespace OloloGate

/-! Lemmas and theorems: Codec evaluation lemmas -/

theorem validateToken_generateToken_self (secret : String) (id : Nat) (phone : String)
    (version : Nat) (kind : TokenType) (ttl now : Nat) (httl : 0 < ttl) :
    validateToken secret (generateToken secret id phone version kind ttl now) kind now =
      .ok (generateToken secret id phone version kind ttl now).claims := by
  have hexp : ¬ (now + ttl ≤ now) := by omega
  simp [validateToken, generateToken, hexp]

theorem validateToken_generateToken_ne (secret : String) (id : Nat) (phone : String)
    (version : Nat) (kind expected : TokenType) (ttl now : Nat) (httl : 0 < ttl)
    (hk : kind ≠ expected) :
    validateToken secret (generateToken secret id phone version kind ttl now) expected now =
      .error .invalidTokenType := by
  have hexp : ¬ (now + ttl ≤ now) := by omega
  simp [validateToken, generateToken, hexp, hk]

theorem validateToken_generateAdminToken_self (secret : String) (id : Nat)
    (username role : String) (version mintTime now : Nat) (hnbf : mintTime ≤ now) :
    validateAdminToken secret (generateAdminToken secret id username role version mintTime) now =
      .ok (generateAdminToken secret id username role version mintTime).claims := by
  simp [validateAdminToken, validateToken, generateAdminToken, Nat.not_lt.mpr hnbf]

theorem validateToken_generateAdminToken_ne (secret : String) (id : Nat)
    (username role : String) (version mintTime now : Nat) (hnbf : mintTime ≤ now)
    (expected : TokenType) (hk : expected ≠ .admin) :
    validateToken secret (generateAdminToken secret id username role version mintTime)
      expected now = .error .invalidTokenType := by
  simp [validateToken, generateAdminToken, Nat.not_lt.mpr hnbf, (Ne.symm hk)]

end OloloGate

namespace OloloGate

/-! Lemmas and theorems: Claim C4 -/

/-- Minting dispatched by kind, for stating the round-trip over all three
kinds at once: admin tokens through `GenerateAdminToken`, user tokens
through `generateToken` (as `GenerateTokens` does). -/
def mintFor (secret : String) (id : Nat) (attr role : String) (version : Nat)
    (kind : TokenType) (ttl now : Nat) : Token :=
  match kind with
  | .admin => generateAdminToken secret id attr role version now
  | k => generateToken secret id attr version k ttl now

/-- C4: minting a token of any kind and immediately verifying it with the
same expected kind succeeds and returns the minted claims (which carry the
given principal id, identity attribute, kind, and version); verifying the
same token with any other expected kind fails with the kind-mismatch
error. -/
theorem c4_mint_verify_roundtrip (secret : String) (id : Nat) (attr role : String)
    (version : Nat) (kind : TokenType) (ttl now : Nat) (httl : 0 < ttl) :
    validateToken secret (mintFor secret id attr role version kind ttl now) kind now =
      .ok (mintFor secret id attr role version kind ttl now).claims ∧
    (mintFor secret id attr role version kind ttl now).claims.id = id ∧
    (mintFor secret id attr role version kind ttl now).claims.tokenType = kind ∧
    (mintFor secret id attr role version kind ttl now).claims.tokenVersion = version ∧
    (kind = .admin → (mintFor secret id attr role version kind ttl now).claims.username = attr) ∧
    (kind ≠ .admin → (mintFor secret id attr role version kind ttl now).claims.phone = attr) ∧
    (∀ kind2, kind2 ≠ kind →
      validateToken secret (mintFor secret id attr role version kind ttl now) kind2 now =
        .error .invalidTokenType) := by
  cases kind with
  | access =>
      refine ⟨validateToken_generateToken_self secret id attr version .access ttl now httl,
        rfl, rfl, rfl, ?_, ?_, ?_⟩
      · intro hc; cases hc
      · intro _; rfl
      intro kind2 hk2
      cases kind2 with
      | access => exact absurd rfl hk2
      | refresh =>
          exact validateToken_generateToken_ne secret id attr version .access .refresh
            ttl now httl (by simp)
      | admin =>
          exact validateToken_generateToken_ne secret id attr version .access .admin
            ttl now httl (by simp)
  | refresh =>
      refine ⟨validateToken_generateToken_self secret id attr version .refresh ttl now httl,
        rfl, rfl, rfl, ?_, ?_, ?_⟩
      · intro hc; cases hc
      · intro _; rfl
      intro kind2 hk2
      cases kind2 with
      | refresh => exact absurd rfl hk2
      | access =>
          exact validateToken_generateToken_ne secret id attr version .refresh .access
            ttl now httl (by simp)
      | admin =>
          exact validateToken_generateToken_ne secret id attr version .refresh .admin
            ttl now httl (by simp)
  | admin =>
      refine ⟨validateToken_generateAdminToken_self secret id attr role version now now
          le_rfl, rfl, rfl, rfl, ?_, ?_, ?_⟩
      · intro _; rfl
      · intro hc; exact absurd rfl hc
      intro kind2 hk2
      cases kind2 with
      | admin => exact absurd rfl hk2
      | access =>
          exact validateToken_generateAdminToken_ne secret id attr role version now now
            le_rfl .access (by simp)
      | refresh =>
          exact validateToken_generateAdminToken_ne secret id attr role version now now
            le_rfl .refresh (by simp)

/-- Witness for C4: a concrete access token round-trips and is rejected as
a refresh token. -/
theorem c4_mint_verify_roundtrip_witness :
    validateToken "secret" (mintFor "secret" 1 demoPhone "" 0 .access 15 0) .access 0 =
      .ok (mintFor "secret" 1 demoPhone "" 0 .access 15 0).claims ∧
    validateToken "secret" (mintFor "secret" 1 demoPhone "" 0 .access 15 0) .refresh 0 =
      .error .invalidTokenType := by
  have h := c4_mint_verify_roundtrip "secret" 1 demoPhone "" 0 .access 15 0 (by decide)
  exact ⟨h.1, h.2.2.2.2.2.2 .refresh (by decide)⟩

end OloloGate

namespace OloloGate

/-! Lemmas and theorems: Claim C5 -/

/-- C5: `RefreshToken` answers the invalid-or-expired error whenever the
codec rejects the input as a user-refresh token; answers the invalidated
error whenever the codec accepts it but the live stored version differs
from the token's version stamp; and on success returns the store unchanged
together with a fresh access token stamped with the refresh token's
version. -/
theorem c5_refresh_token_handler
    (cfg : Config) (store : List User) (refreshTok : Token) (now : Nat) :
    (∀ e, validateToken cfg.secret refreshTok .refresh now = .error e →
      refreshTokenHandler cfg store refreshTok now =
        .unauthorized "Invalid or expired refresh token") ∧
    (∀ claims user, validateToken cfg.secret refreshTok .refresh now = .ok claims →
      findUserByID store claims.id = some user →
      user.tokenVersion ≠ claims.tokenVersion →
      refreshTokenHandler cfg store refreshTok now =
        .unauthorized "Token has been invalidated. Please login again.") ∧
    (∀ claims user, validateToken cfg.secret refreshTok .refresh now = .ok claims →
      findUserByID store claims.id = some user →
      user.tokenVersion = claims.tokenVersion →
      refreshTokenHandler cfg store refreshTok now =
        .ok store (generateToken cfg.secret claims.id claims.phone claims.tokenVersion
          .access cfg.accessExpiry now)) := by
  refine ⟨?_, ?_, ?_⟩
  · intro e hv
    simp [refreshTokenHandler, hv]
  · intro claims user hv hf hne
    simp [refreshTokenHandler, hv, hf, hne]
  · intro claims user hv hf heq
    simp [refreshTokenHandler, refreshAccessToken, hv, hf, heq]

/-- Witness for C5: a concrete refresh exchanged for a fresh access token
at the same version, with the store untouched. -/
theorem c5_refresh_token_handler_witness :
    refreshTokenHandler demoCfg [demoUserAt 0 ""]
        (generateTokens demoCfg 1 demoPhone 0 0).refreshToken 5 =
      .ok [demoUserAt 0 ""]
        (generateToken demoCfg.secret
          (generateTokens demoCfg 1 demoPhone 0 0).refreshToken.claims.id
          (generateTokens demoCfg 1 demoPhone 0 0).refreshToken.claims.phone
          (generateTokens demoCfg 1 demoPhone 0 0).refreshToken.claims.tokenVersion
          .access demoCfg.accessExpiry 5) :=
  (c5_refresh_token_handler demoCfg [demoUserAt 0 ""]
      (generateTokens demoCfg 1 demoPhone 0 0).refreshToken 5).2.2
    (generateTokens demoCfg 1 demoPhone 0 0).refreshToken.claims
    (demoUserAt 0 "") rfl (by decide) rfl

end OloloGate

namespace OloloGate

/-! Lemmas and theorems: Claim C6 -/

/-- C6 counterexample: on the admin guard, a valid token whose admin id is
absent from the store is answered with `Token has been invalidated` — the
very same outcome as a version mismatch — not with an admin-not-found
message, and the version-mismatch message carries no please-login-again
hint; so the claimed branch-to-outcome mapping fails for the admin
guard. -/
theorem c6_counterexample :
    adminJWTProtected demoCfg []
        (.bearer (generateAdminToken "secret" 5 "root" RoleSuper 3 0)) 0 =
      .unauthorized "Token has been invalidated" ∧
    adminJWTProtected demoCfg [demoAdminAt 7]
        (.bearer (generateAdminToken "secret" 5 "root" RoleSuper 3 0)) 0 =
      .unauthorized "Token has been invalidated" :=
  ⟨by decide, by decide⟩

/-- C6 (amended): both guards decide in the claimed order — missing
header, malformed header, codec failure for the route's kind, principal
not found (soft-deleted principals never resolve), version mismatch, then
success.  The user guard answers `User not found` on the lookup miss and
`Token has been invalidated. Please login again.` on a mismatch, and
attaches the claimed id and phone; the admin guard answers
`Token has been invalidated` both on the lookup miss and on a mismatch,
and attaches the claimed id, username, and role. -/
theorem c6_guard_decision_order
    (cfg : Config) (ustore : List User) (astore : List Admin) (now : Nat) :
    (jwtProtected cfg ustore .missing now =
      .unauthorized "Missing authorization header") ∧
    (∀ raw, jwtProtected cfg ustore (.malformed raw) now =
      .unauthorized "Invalid authorization header format. Use: Bearer <token>") ∧
    (∀ tok e, validateToken cfg.secret tok .access now = .error e →
      jwtProtected cfg ustore (.bearer tok) now =
        .unauthorized "Invalid or expired token") ∧
    (∀ tok claims, validateToken cfg.secret tok .access now = .ok claims →
      findUserByID ustore claims.id = none →
      jwtProtected cfg ustore (.bearer tok) now = .unauthorized "User not found") ∧
    (∀ tok claims user, validateToken cfg.secret tok .access now = .ok claims →
      findUserByID ustore claims.id = some user →
      user.tokenVersion ≠ claims.tokenVersion →
      jwtProtected cfg ustore (.bearer tok) now =
        .unauthorized "Token has been invalidated. Please login again.") ∧
    (∀ tok claims user, validateToken cfg.secret tok .access now = .ok claims →
      findUserByID ustore claims.id = some user →
      user.tokenVersion = claims.tokenVersion →
      jwtProtected cfg ustore (.bearer tok) now = .ok claims.id claims.phone) ∧
    (∀ i, (∀ u ∈ ustore, u.id = i → u.deletedAt ≠ none) →
      findUserByID ustore i = none) ∧
    (adminJWTProtected cfg astore .missing now =
      .unauthorized "Missing authorization header") ∧
    (∀ raw, adminJWTProtected cfg astore (.malformed raw) now =
      .unauthorized "Invalid authorization header format. Use: Bearer <token>") ∧
    (∀ tok e, validateAdminToken cfg.secret tok now = .error e →
      adminJWTProtected cfg astore (.bearer tok) now =
        .unauthorized "Invalid or expired token") ∧
    (∀ tok claims, validateAdminToken cfg.secret tok now = .ok claims →
      findAdminByID astore claims.id = none →
      adminJWTProtected cfg astore (.bearer tok) now =
        .unauthorized "Token has been invalidated") ∧
    (∀ tok claims admin, validateAdminToken cfg.secret tok now = .ok claims →
      findAdminByID astore claims.id = some admin →
      admin.tokenVersion ≠ claims.tokenVersion →
      adminJWTProtected cfg astore (.bearer tok) now =
        .unauthorized "Token has been invalidated") ∧
    (∀ tok claims admin, validateAdminToken cfg.secret tok now = .ok claims →
      findAdminByID astore claims.id = some admin →
      admin.tokenVersion = claims.tokenVersion →
      adminJWTProtected cfg astore (.bearer tok) now =
        .ok claims.id claims.username claims.role) ∧
    (∀ i, (∀ a ∈ astore, a.id = i → a.deletedAt ≠ none) →
      findAdminByID astore i = none) := by
  refine ⟨rfl, fun raw => rfl, ?_, ?_, ?_, ?_, ?_, rfl, fun raw => rfl, ?_, ?_, ?_, ?_, ?_⟩
  · intro tok e hv
    simp [jwtProtected, hv]
  · intro tok claims hv hf
    simp [jwtProtected, hv, hf]
  · intro tok claims user hv hf hne
    simp [jwtProtected, hv, hf, hne]
  · intro tok claims user hv hf heq
    simp [jwtProtected, hv, hf, heq]
  · intro i hdel
    rw [findUserByID, List.find?_eq_none]
    intro x hx
    simp only [Bool.and_eq_true, beq_iff_eq, Option.isNone_iff_eq_none, not_and]
    exact fun hxdel hxid => (hdel x hx hxid) hxdel
  · intro tok e hv
    simp [adminJWTProtected, hv]
  · intro tok claims hv hf
    simp [adminJWTProtected, hv, hf]
  · intro tok claims admin hv hf hne
    simp [adminJWTProtected, hv, hf, hne]
  · intro tok claims admin hv hf heq
    simp [adminJWTProtected, hv, hf, heq]
  · intro i hdel
    rw [findAdminByID, List.find?_eq_none]
    intro x hx
    simp only [Bool.and_eq_true, beq_iff_eq, Option.isNone_iff_eq_none, not_and]
    exact fun hxdel hxid => (hdel x hx hxid) hxdel

/-- Witness for amended C6: a valid concrete access token against an empty
store is answered with the user-not-found message. -/
theorem c6_guard_decision_order_witness :
    jwtProtected demoCfg []
        (.bearer (generateTokens demoCfg 1 demoPhone 0 0).accessToken) 5 =
      .unauthorized "User not found" :=
  (c6_guard_decision_order demoCfg [] [] 5).2.2.2.1
    (generateTokens demoCfg 1 demoPhone 0 0).accessToken
    (generateTokens demoCfg 1 demoPhone 0 0).accessToken.claims rfl rfl

end OloloGate

namespace OloloGate

/-! Lemmas and theorems: Claim C7 -/

/-- A successful admin update, seen from the pre-state: the saved record
is persisted under the same id with the same token version and delete
marker — `UpdateAdmin` never touches `TokenVersion`. -/
theorem updateAdmin_ok_inv {store : List Admin} {reqRole : String}
    {reqID adminID : Nat} {req : UpdateAdminRequest}
    {store1 : List Admin} {a0 a1 : Admin}
    (hfind : findAdminByID store adminID = some a0)
    (h : updateAdmin store reqRole reqID adminID req = .ok store1 a1) :
    store1 = saveAdmin store a1 ∧ a1.id = a0.id ∧
    a1.tokenVersion = a0.tokenVersion ∧ a1.deletedAt = a0.deletedAt := by
  unfold updateAdmin at h
  split at h
  · cases h
  split at h
  · cases h
  split at h
  · cases h
  rw [hfind] at h
  dsimp only at h
  split at h
  · cases h
  split at h
  · cases h
  obtain ⟨h1, h2⟩ := UpdateAdminResult.ok.inj h
  subst h2
  rcases req with ⟨p, un, r⟩
  cases p <;> cases un <;> cases r <;> exact ⟨h1.symm, rfl, rfl, rfl⟩

/-- C7: updating an admin's password (or any fields of the update request)
leaves the token version unchanged, so an admin token minted before the
update still passes the admin guard afterwards, yielding the original id,
username, and role. -/
theorem c7_admin_password_update_keeps_old_token
    (cfg : Config) (store : List Admin) (reqRole : String) (reqID adminID : Nat)
    (req : UpdateAdminRequest) (store1 : List Admin) (a0 a1 : Admin)
    (mintTime now : Nat) (hnbf : mintTime ≤ now)
    (hfind : findAdminByID store adminID = some a0)
    (h : updateAdmin store reqRole reqID adminID req = .ok store1 a1) :
    a1.tokenVersion = a0.tokenVersion ∧
    adminJWTProtected cfg store1
        (.bearer (generateAdminToken cfg.secret a0.id a0.username a0.role
          a0.tokenVersion mintTime)) now =
      .ok a0.id a0.username a0.role := by
  obtain ⟨hs1, hid, hver, hdel⟩ := updateAdmin_ok_inv hfind h
  obtain ⟨hmem, hdel0, hidx⟩ := findAdminByID_props hfind
  refine ⟨hver, ?_⟩
  have hval := validateToken_generateAdminToken_self cfg.secret a0.id a0.username
    a0.role a0.tokenVersion mintTime now hnbf
  have hfind1 : findAdminByID store1 a0.id = some a1 := by
    rw [hs1, ← hid]
    exact findAdminByID_saveAdmin (hdel.trans hdel0) hmem hid.symm
  simp only [adminJWTProtected, validateAdminToken] at hval ⊢
  rw [hval]
  dsimp only [generateAdminToken]
  rw [hfind1]
  simp [hver]

/-- Witness for C7: a concrete password-only update at version 3 whose
pre-update token still authorizes. -/
theorem c7_admin_password_update_keeps_old_token_witness :
    ({ demoAdminAt 3 with password := hashPassword "newadminpw" } : Admin).tokenVersion =
      (demoAdminAt 3).tokenVersion ∧
    adminJWTProtected demoCfg
        [{ demoAdminAt 3 with password := hashPassword "newadminpw" }]
        (.bearer (generateAdminToken demoCfg.secret 5 "root" RoleSuper 3 0)) 9 =
      .ok 5 "root" RoleSuper :=
  c7_admin_password_update_keeps_old_token demoCfg [demoAdminAt 3] RoleSuper 5 5
    { password := some "newadminpw", username := none, role := none }
    [{ demoAdminAt 3 with password := hashPassword "newadminpw" }]
    (demoAdminAt 3) { demoAdminAt 3 with password := hashPassword "newadminpw" }
    0 9 (by decide) (by decide) (by decide)

end OloloGate

namespace OloloGate

/-! Lemmas and theorems: Claim C8 -/

theorem validateToken_generateToken_at (secret : String) (id : Nat) (phone : String)
    (version : Nat) (kind : TokenType) (ttl mintTime now : Nat)
    (hnbf : mintTime ≤ now) (hexp : now < mintTime + ttl) :
    validateToken secret (generateToken secret id phone version kind ttl mintTime) kind now =
      .ok (generateToken secret id phone version kind ttl mintTime).claims := by
  have h1 : ¬ (mintTime + ttl ≤ now) := by omega
  simp [validateToken, generateToken, h1, Nat.not_lt.mpr hnbf]

/-- `UpdateUser` on a password-only request: the found user is persisted
with the re-hashed password and the version incremented by one. -/
theorem updateUser_password_only {store : List User} {userID : Nat}
    {req : UpdateUserRequest} {u0 : User}
    (hfind : findUserByID store userID = some u0)
    (hphone : req.phone = "") (hpw : req.password ≠ "")
    (hlen : ¬ req.password.length < 6) :
    updateUser store userID req =
      .ok (saveUser store { u0 with password := hashPassword req.password,
                                    tokenVersion := u0.tokenVersion + 1 })
          { u0 with password := hashPassword req.password,
                    tokenVersion := u0.tokenVersion + 1 } := by
  rw [updateUser, if_neg (by simp [hlen]), hfind]
  dsimp only
  rw [if_neg (by simp [hphone]), if_neg (by simp [hphone])]
  simp [hphone, hpw]

/-- Saving a row that keeps its phone: looking up by that phone afterwards
resolves to the saved row. -/
theorem findUserByPhone_saveUser {store : List User} {u0 u1 : User}
    (hfind : findUserByPhone store u0.phone = some u0)
    (hid : u1.id = u0.id) (hphone : u1.phone = u0.phone)
    (hdel : u1.deletedAt = none) :
    findUserByPhone (saveUser store u1) u0.phone = some u1 := by
  induction store with
  | nil => simp [findUserByPhone] at hfind
  | cons a l ih =>
      simp only [findUserByPhone, saveUser, List.map_cons] at hfind ⊢
      by_cases hida : (a.id == u1.id) = true
      · have hh : (if a.id == u1.id then u1 else a) = u1 := by rw [if_pos hida]
        rw [hh, List.find?_cons_of_pos]
        simp [hdel, hphone]
      · have hh : (if a.id == u1.id then u1 else a) = a := by rw [if_neg hida]
        rw [hh]
        simp only [List.find?_cons] at hfind ⊢
        cases hpa : (a.deletedAt.isNone && a.phone == u0.phone)
        · rw [hpa] at hfind
          exact ih hfind
        · rw [hpa] at hfind
          obtain rfl : a = u0 := Option.some.inj hfind
          exact absurd (by simp [hid]) hida

/-- C8: an administrative password reset increments the user's version by
exactly one; a user access token minted before the reset (stamped with the
old version) is then rejected by the access guard with the invalidation
message; and a fresh login with the new password succeeds and yields
tokens stamped with the new version. -/
theorem c8_user_password_reset_invalidates
    (cfg : Config) (store : List User) (userID : Nat) (req : UpdateUserRequest)
    (u0 : User) (mintTime now now2 : Nat) (d : String)
    (hfind : findUserByID store userID = some u0)
    (hfindPhone : findUserByPhone store u0.phone = some u0)
    (hphone : req.phone = "") (hpw : req.password ≠ "")
    (hlen : ¬ req.password.length < 6)
    (hnbf : mintTime ≤ now) (hexp : now < mintTime + cfg.accessExpiry)
    (hdev : u0.currentDeviceID = "") (hd : d ≠ "")
    (hE : isE164 u0.phone = true) :
    updateUser store userID req =
      .ok (saveUser store { u0 with password := hashPassword req.password,
                                    tokenVersion := u0.tokenVersion + 1 })
          { u0 with password := hashPassword req.password,
                    tokenVersion := u0.tokenVersion + 1 } ∧
    jwtProtected cfg
        (saveUser store { u0 with password := hashPassword req.password,
                                  tokenVersion := u0.tokenVersion + 1 })
        (.bearer (generateTokens cfg u0.id u0.phone u0.tokenVersion mintTime).accessToken)
        now =
      .unauthorized "Token has been invalidated. Please login again." ∧
    login cfg
        (saveUser store { u0 with password := hashPassword req.password,
                                  tokenVersion := u0.tokenVersion + 1 })
        u0.phone req.password d now2 =
      .ok (saveUser
            (saveUser store { u0 with password := hashPassword req.password,
                                      tokenVersion := u0.tokenVersion + 1 })
            { u0 with password := hashPassword req.password,
                      tokenVersion := u0.tokenVersion + 1, currentDeviceID := d })
          { u0 with password := hashPassword req.password,
                    tokenVersion := u0.tokenVersion + 1, currentDeviceID := d }
          (generateTokens cfg u0.id u0.phone (u0.tokenVersion + 1) now2) := by
  obtain ⟨hmem, hdel0, -⟩ := findUserByID_props hfind
  refine ⟨updateUser_password_only hfind hphone hpw hlen, ?_, ?_⟩
  · have hval := validateToken_generateToken_at cfg.secret u0.id u0.phone u0.tokenVersion
      .access cfg.accessExpiry mintTime now hnbf hexp
    have hfid : findUserByID
        (saveUser store { u0 with password := hashPassword req.password,
                                  tokenVersion := u0.tokenVersion + 1 })
        u0.id = some { u0 with password := hashPassword req.password,
                               tokenVersion := u0.tokenVersion + 1 } :=
      findUserByID_saveUser hdel0 hmem rfl
    simp only [jwtProtected, generateTokens]
    rw [hval]
    dsimp only [generateToken]
    rw [hfid]
    simp
  · have hfp : findUserByPhone
        (saveUser store { u0 with password := hashPassword req.password,
                                  tokenVersion := u0.tokenVersion + 1 })
        u0.phone = some { u0 with password := hashPassword req.password,
                                  tokenVersion := u0.tokenVersion + 1 } :=
      findUserByPhone_saveUser hfindPhone rfl rfl hdel0
    rw [login, if_neg (by simp [hE]), hfp]
    dsimp only
    rw [if_neg (by simp [checkPassword])]
    rw [applyDeviceLogin_sameDevice
      { u0 with password := hashPassword req.password,
                tokenVersion := u0.tokenVersion + 1 } d hd (Or.inl hdev)]

/-- Witness for C8 at a concrete reset: the pre-reset access token is
rejected with the invalidation message. -/
theorem c8_user_password_reset_invalidates_witness :
    jwtProtected demoCfg
        (saveUser [demoUserAt 0 ""]
          { demoUserAt 0 "" with password := hashPassword "newpass123",
                                 tokenVersion := (demoUserAt 0 "").tokenVersion + 1 })
        (.bearer (generateTokens demoCfg (demoUserAt 0 "").id (demoUserAt 0 "").phone
          (demoUserAt 0 "").tokenVersion 0).accessToken) 5 =
      .unauthorized "Token has been invalidated. Please login again." :=
  (c8_user_password_reset_invalidates demoCfg [demoUserAt 0 ""] 1
      { phone := "", password := "newpass123" } (demoUserAt 0 "") 0 5 7 "A"
      (by decide) (by decide) rfl (by decide) (by decide) (by decide) (by decide)
      rfl (by decide) (by decide)).2.1

end OloloGate

namespace OloloGate

/-! Lemmas and theorems: Claim C9 -/

/-- C9: an admin update of a user that supplies no password leaves the
token version unchanged even when it changes the phone — the increment
guarded by the phone-changed condition is unreachable, because the user's
phone field is overwritten with the requested phone before that condition
is re-evaluated. -/
theorem c9_phone_only_update_keeps_version
    (store : List User) (userID : Nat) (req : UpdateUserRequest)
    (u0 u1 : User) (store1 : List User)
    (hfind : findUserByID store userID = some u0)
    (hpw : req.password = "")
    (h : updateUser store userID req = .ok store1 u1) :
    u1.tokenVersion = u0.tokenVersion ∧
    (req.phone ≠ "" → req.phone ≠ u0.phone → u1.phone = req.phone) := by
  rw [updateUser, if_neg (by simp [hpw]), hfind] at h
  dsimp only at h
  split at h
  · cases h
  split at h
  · cases h
  by_cases hc : req.phone ≠ "" ∧ req.phone ≠ u0.phone
  · obtain ⟨hc1, hc2⟩ := hc
    simp only [hc1, hc2, hpw, ne_eq, not_false_eq_true, and_self, if_true,
      not_true_eq_false, if_false, User.mk.injEq] at h
    obtain ⟨-, h2⟩ := UpdateUserResult.ok.inj h
    refine ⟨by rw [← h2]; simp, fun _ _ => by rw [← h2]; simp⟩
  · rw [if_neg hc] at h
    have hps : ¬ (req.password ≠ "") := by simp [hpw]
    rw [if_neg hps, if_neg hc] at h
    obtain ⟨-, h2⟩ := UpdateUserResult.ok.inj h
    refine ⟨by rw [← h2], fun hne hne2 => absurd ⟨hne, hne2⟩ hc⟩

/-- Witness for C9: a concrete phone-only update leaves version 0 and
stores the new phone. -/
theorem c9_phone_only_update_keeps_version_witness :
    ({ demoUserAt 0 "" with phone := "+77770000000" } : User).tokenVersion =
      (demoUserAt 0 "").tokenVersion ∧
    ({ demoUserAt 0 "" with phone := "+77770000000" } : User).phone = "+77770000000" := by
  have h := c9_phone_only_update_keeps_version [demoUserAt 0 ""] 1
    { phone := "+77770000000", password := "" } (demoUserAt 0 "")
    { demoUserAt 0 "" with phone := "+77770000000" }
    [{ demoUserAt 0 "" with phone := "+77770000000" }] (by decide) rfl (by decide)
  exact ⟨h.1, h.2 (by decide) (by decide)⟩

/-! Lemmas and theorems: Claim C10 -/

/-- C10: registering with the phone of a soft-deleted user succeeds and
creates a fresh principal at version 0 — the duplicate check consults only
non-deleted rows, and the composite index key over (phone, deleted-at)
differs between the deleted row and the new live row even though the
phones coincide, so both rows coexist. -/
theorem c10_register_reuses_soft_deleted_phone
    (store : List User) (phone password : String) (newID : Nat) (old : User)
    (hold : old ∈ store) (holdPhone : old.phone = phone)
    (holdDel : old.deletedAt ≠ none)
    (hlive : findUserByPhone store phone = none)
    (hphone : isE164 phone = true) (hpw : ¬ password.length < 6) :
    register store phone password newID =
      .created
        (store ++ [{ id := newID, phone := phone, password := hashPassword password,
                     tokenVersion := 0, currentDeviceID := "", deletedAt := none }])
        { id := newID, phone := phone, password := hashPassword password,
          tokenVersion := 0, currentDeviceID := "", deletedAt := none } ∧
    old ∈ store ++ [{ id := newID, phone := phone, password := hashPassword password,
                      tokenVersion := 0, currentDeviceID := "", deletedAt := none }] ∧
    (phoneIndexKey old).1 =
      (phoneIndexKey { id := newID, phone := phone, password := hashPassword password,
                       tokenVersion := 0, currentDeviceID := "",
                       deletedAt := none }).1 ∧
    phoneIndexKey old ≠
      phoneIndexKey { id := newID, phone := phone, password := hashPassword password,
                      tokenVersion := 0, currentDeviceID := "", deletedAt := none } := by
  refine ⟨?_, List.mem_append_left _ hold, holdPhone, ?_⟩
  · rw [register, if_neg (by simp [hphone]), if_neg hpw, hlive]
  · exact fun heq => holdDel (congrArg Prod.snd heq)

/-- Witness for C10: a concrete register over a store holding only a
soft-deleted user with the same phone. -/
theorem c10_register_reuses_soft_deleted_phone_witness :
    register [{ demoUserAt 4 "A" with deletedAt := some 99 }] demoPhone "password123" 2 =
      .created
        ([{ demoUserAt 4 "A" with deletedAt := some 99 }] ++
          [{ id := 2, phone := demoPhone, password := hashPassword "password123",
             tokenVersion := 0, currentDeviceID := "", deletedAt := none }])
        { id := 2, phone := demoPhone, password := hashPassword "password123",
          tokenVersion := 0, currentDeviceID := "", deletedAt := none } :=
  (c10_register_reuses_soft_deleted_phone
      [{ demoUserAt 4 "A" with deletedAt := some 99 }] demoPhone "password123" 2
      { demoUserAt 4 "A" with deletedAt := some 99 }
      (by decide) (by decide) (by decide) (by decide) (by decide) (by decide)).1

end OloloGate
